import Mathlib

/-!
Verification of the `damj` package (sources `src/damj/utils.py` and
`src/damj/damj.py`) against its natural-language specification.

The Python code is shallowly embedded: pure string manipulation is
translated to Lean functions over `String` and `List Char`; the
filesystem seen by `os.walk` is an explicit tree of entries; Python
exceptions (`SyntaxError` from `ast.parse`, i.e. the spec's ParseError)
are `Option`, with `none` for a raised error.
-/

namespace Damj

/-! ### Character-list primitives

Models of the Python string operations used by the package:
`str.startswith`, substring containment (`pat in s`), `str.strip`,
`str.splitlines`, `"\n".join`, `os.path.join`. -/

/-- Model of Python `s.startswith(pre)` at the character-list level:
`pre` is a leading segment of `l`. -/
def leadsWith : List Char → List Char → Bool
  | [], _ => true
  | _ :: _, [] => false
  | a :: as, b :: bs => a = b && leadsWith as bs

/-- Model of Python substring containment `pat in l`:
`pat` occurs contiguously somewhere inside `l`. -/
def occursIn (pat : List Char) : List Char → Bool
  | [] => leadsWith pat []
  | c :: rest => leadsWith pat (c :: rest) || occursIn pat rest

/-- Python `s.startswith(pre)`. -/
def pyStartsWith (s pre : String) : Bool := leadsWith pre.data s.data

/-- Python `s.endswith(suf)`. -/
def pyEndsWith (s suf : String) : Bool := leadsWith suf.data.reverse s.data.reverse

/-- The whitespace characters stripped by Python `str.strip()`
(ASCII part; the code only ever deals with these). -/
def pyIsSpace (c : Char) : Bool :=
  c = ' ' || c = '\t' || c = '\n' || c = '\r' || c = '\x0b' || c = '\x0c'

/-- Python `s.strip()`: remove leading and trailing whitespace. -/
def pyStrip (s : String) : String :=
  ⟨((s.data.dropWhile pyIsSpace).reverse.dropWhile pyIsSpace).reverse⟩

/-- Python `os.path.join(a, b)` for the relative, separator-free names
appearing in this package: `a + "/" + b`, written at the character level. -/
def pyJoin (a b : String) : String := ⟨a.data ++ '/' :: b.data⟩

/-- Relative path of the child directory named `d` of the directory with
relative path `rel`, as computed by `os.path.relpath(root, cwd)` inside
`os.walk`: the top level is `"."`, below it paths are joined with `/`. -/
def childRel (rel d : String) : String := if rel = "." then d else pyJoin rel d

/-! ### Pattern matcher (utils.py, `matches_pattern`, lines 31-52) -/

/-- Embedding of `matches_pattern(file_path, patterns)`: scan the patterns
in order; `"*"` matches everything, any other pattern matches by substring
containment; an empty list matches nothing. -/
def matches_pattern (file_path : String) (patterns : List String) : Bool :=
  match patterns with
  | [] => false
  | p :: rest =>
    if p = "*" then true
    else if occursIn p.data file_path.data then true
    else matches_pattern file_path rest

theorem leadsWith_iff (pat : List Char) :
    ∀ l, leadsWith pat l = true ↔ ∃ r, pat ++ r = l := by
  induction pat with
  | nil => intro l; simp [leadsWith]
  | cons a as ih =>
    intro l
    cases l with
    | nil => simp [leadsWith]
    | cons b bs =>
      simp only [leadsWith, Bool.and_eq_true, decide_eq_true_eq, ih bs]
      constructor
      · rintro ⟨rfl, r, rfl⟩; exact ⟨r, rfl⟩
      · rintro ⟨r, h⟩
        injection h with h1 h2
        exact ⟨h1, r, h2⟩

theorem occursIn_iff (pat : List Char) :
    ∀ l, occursIn pat l = true ↔ ∃ t r, t ++ pat ++ r = l := by
  intro l
  induction l with
  | nil =>
    simp only [occursIn, leadsWith_iff]
    constructor
    · rintro ⟨r, h⟩
      rcases List.append_eq_nil.mp h with ⟨rfl, rfl⟩
      exact ⟨[], [], rfl⟩
    · rintro ⟨t, r, h⟩
      rcases List.append_eq_nil.mp h with ⟨h1, rfl⟩
      rcases List.append_eq_nil.mp h1 with ⟨rfl, rfl⟩
      exact ⟨[], rfl⟩
  | cons c rest ih =>
    simp only [occursIn, Bool.or_eq_true, leadsWith_iff, ih]
    constructor
    · rintro (⟨r, h⟩ | ⟨t, r, h⟩)
      · exact ⟨[], r, by simpa using h⟩
      · exact ⟨c :: t, r, by simp [h]⟩
    · rintro ⟨t, r, h⟩
      cases t with
      | nil => exact Or.inl ⟨r, by simpa using h⟩
      | cons c' t' =>
        injection h with h1 h2
        exact Or.inr ⟨t', r, h2⟩

theorem matches_pattern_of_star (p : String) :
    ∀ L : List String, "*" ∈ L → matches_pattern p L = true := by
  intro L hL
  induction L with
  | nil => cases hL
  | cons q rest ih =>
    by_cases hq : q = "*"
    · simp [matches_pattern, hq]
    · rcases List.mem_cons.mp hL with h | h
      · exact absurd h.symm hq
      · simp only [matches_pattern, if_neg hq]
        rcases h2 : occursIn q.data p.data with _ | _
        · simpa [h2] using ih h
        · simp [h2]

theorem matches_pattern_iff_substring (p : String) :
    ∀ L : List String, "*" ∉ L →
      (matches_pattern p L = true ↔ ∃ pat ∈ L, ∃ t r, t ++ pat.data ++ r = p.data) := by
  intro L hL
  induction L with
  | nil => simp [matches_pattern]
  | cons q rest ih =>
    have hq : q ≠ "*" := fun h => hL (h ▸ List.mem_cons_self q rest)
    have hrest : "*" ∉ rest := fun h => hL (List.mem_cons_of_mem q h)
    simp only [matches_pattern, if_neg hq]
    by_cases h2 : occursIn q.data p.data = true
    · rw [if_pos h2]
      exact iff_of_true rfl ⟨q, List.mem_cons_self q rest, (occursIn_iff q.data p.data).mp h2⟩
    · rw [if_neg h2, ih hrest]
      constructor
      · rintro ⟨pat, hm, w⟩; exact ⟨pat, List.mem_cons_of_mem q hm, w⟩
      · rintro ⟨pat, hm, w⟩
        rcases List.mem_cons.mp hm with rfl | hm'
        · exact absurd ((occursIn_iff pat.data p.data).mpr w) h2
        · exact ⟨pat, hm', w⟩

/-- C2: the pattern matcher returns true if the list contains the literal
`"*"`; without `"*"` it returns true exactly when some pattern is a
substring of the path; and it returns false on the empty list. -/
theorem C2_matches_pattern_correct (p : String) (L : List String) :
    ("*" ∈ L → matches_pattern p L = true) ∧
    ("*" ∉ L →
      (matches_pattern p L = true ↔ ∃ pat ∈ L, ∃ t r, t ++ pat.data ++ r = p.data)) ∧
    matches_pattern p [] = false :=
  ⟨matches_pattern_of_star p L, matches_pattern_iff_substring p L, rfl⟩

/-- Concrete instance of `C2_matches_pattern_correct`: pattern `"b"` is a
substring of `"abc"`, so the matcher accepts, and the matcher rejects on
an empty pattern list. -/
theorem C2_matches_pattern_correct_witness :
    matches_pattern "abc" ["b"] = true ∧ matches_pattern "abc" [] = false := by
  refine ⟨?_, (C2_matches_pattern_correct "abc" ["b"]).2.2⟩
  exact ((C2_matches_pattern_correct "abc" ["b"]).2.1 (by decide)).mpr
    ⟨"b", by decide, ['a'], ['c'], by decide⟩

/-! ### Filesystem model and the Directory Walker
(damj.py, `Damj._get_whitelist_files`, lines 144-167) -/

mutual
/-- A directory entry as enumerated by `os.walk`: either a plain file or a
subdirectory with its children. -/
inductive Entry where
  | file (name : String)
  | dir (name : String) (children : EntryList)
/-- The ordered listing of a directory (a plain list, kept mutual with
`Entry` so that recursion over the tree is structural). -/
inductive EntryList where
  | nil
  | cons (e : Entry) (es : EntryList)
end

/-- View an `EntryList` as an ordinary list of entries. -/
def EntryList.toList : EntryList → List Entry
  | .nil => []
  | .cons e es => e :: es.toList

/-- The filesystem under the traversal root. `root_exists = false` models a
non-existent root, for which `os.walk` yields no triples at all (its default
`onerror=None` swallows the error). -/
structure FS where
  root_exists : Bool
  entries : EntryList

/-- The per-directory file loop of `_get_whitelist_files` (lines 157-165):
for each file of the directory with relative path `rel`, skip names starting
with a dot, skip blacklist matches, keep whitelist matches. -/
def walkFiles (wl bl : List String) (rel : String) (es : EntryList) : List String :=
  es.toList.filterMap fun e =>
    match e with
    | .file n =>
      if pyStartsWith n "." then none
      else if matches_pattern (pyJoin rel n) bl then none
      else if matches_pattern (pyJoin rel n) wl then some (pyJoin rel n)
      else none
    | .dir _ _ => none

mutual
/-- Contribution of one entry of the directory at relative path `rel` to the
`os.walk` traversal of `_get_whitelist_files`: files contribute nothing here
(they are handled by `walkFiles` at their own level), a subdirectory is
skipped entirely when the pruning of lines 154-155 removes it (name starting
with a dot, or relative path matching the blacklist), and otherwise
contributes its own files followed by its own subdirectories. -/
def walkSub (wl bl : List String) (rel : String) : Entry → List String
  | .file _ => []
  | .dir d cs =>
    if pyStartsWith d "." || matches_pattern (pyJoin rel d) bl then []
    else walkFiles wl bl (childRel rel d) cs ++ walkSubs wl bl (childRel rel d) cs
/-- Traversal of the subdirectories of one directory, in listing order. -/
def walkSubs (wl bl : List String) (rel : String) : EntryList → List String
  | .nil => []
  | .cons e es => walkSub wl bl rel e ++ walkSubs wl bl rel es
end

/-- The full `os.walk(cwd)` accumulation of `_get_whitelist_files`: files of
the root first (its relative path is `"."`), then each surviving subtree in
depth-first order. -/
def walk (wl bl : List String) (es : EntryList) : List String :=
  walkFiles wl bl "." es ++ walkSubs wl bl "." es

/-- Embedding of `Damj._get_whitelist_files(whitelist_files, blacklist_files)`:
the Inclusion Set, in traversal order. On a non-existent root `os.walk`
yields nothing and the accumulator stays empty. -/
def get_whitelist_files (wl bl : List String) (fs : FS) : List String :=
  if fs.root_exists then walk wl bl fs.entries else []

/-- A path `p` names a file of the tree `es` (rooted at relative path `rel`)
whose name does not start with a dot, whose relative path does not match the
blacklist, and which is reached exclusively through directories that are
neither hidden (name starting with a dot) nor blacklist-matched — i.e. `p`
does not lie under any pruned directory. -/
inductive CleanFile (bl : List String) : String → EntryList → String → Prop
  | here {rel : String} {es : EntryList} {n : String} :
      Entry.file n ∈ es.toList →
      pyStartsWith n "." = false →
      matches_pattern (pyJoin rel n) bl = false →
      CleanFile bl rel es (pyJoin rel n)
  | deeper {rel : String} {es : EntryList} {d : String} {cs : EntryList} {p : String} :
      Entry.dir d cs ∈ es.toList →
      pyStartsWith d "." = false →
      matches_pattern (pyJoin rel d) bl = false →
      CleanFile bl (childRel rel d) cs p →
      CleanFile bl rel es p

theorem CleanFile.matches_false {bl : List String} {rel : String}
    {es : EntryList} {p : String} (h : CleanFile bl rel es p) :
    matches_pattern p bl = false := by
  induction h with
  | here _ _ hm => exact hm
  | deeper _ _ _ _ ih => exact ih

theorem CleanFile.mono {bl : List String} {rel : String} {es es' : EntryList}
    {p : String} (h : CleanFile bl rel es p)
    (hsub : ∀ e, e ∈ es.toList → e ∈ es'.toList) : CleanFile bl rel es' p := by
  cases h with
  | here hm h1 h2 => exact CleanFile.here (hsub _ hm) h1 h2
  | deeper hm h1 h2 hrec => exact CleanFile.deeper (hsub _ hm) h1 h2 hrec

theorem walkFiles_cleanFile {wl bl : List String} {rel : String}
    {es : EntryList} {p : String} (hp : p ∈ walkFiles wl bl rel es) :
    CleanFile bl rel es p := by
  rcases List.mem_filterMap.mp hp with ⟨e, he, hsome⟩
  cases e with
  | file n =>
    simp only at hsome
    split at hsome
    · cases hsome
    · split at hsome
      · cases hsome
      · split at hsome
        · rename_i h1 h2 _
          injection hsome with hsome
          exact hsome ▸ CleanFile.here he (by simpa using h1) (by simpa using h2)
        · cases hsome
  | dir _ _ => simp at hsome

mutual
theorem walkSub_cleanFile {wl bl : List String} {rel : String} {e : Entry}
    {p : String} (hp : p ∈ walkSub wl bl rel e) :
    CleanFile bl rel (EntryList.cons e EntryList.nil) p := by
  cases e with
  | file _ => cases hp
  | dir d cs =>
    rw [walkSub] at hp
    split at hp
    · cases hp
    · rename_i hkept
      rw [Bool.or_eq_true, not_or] at hkept
      have hin : Entry.dir d cs ∈ (EntryList.cons (Entry.dir d cs) EntryList.nil).toList := by
        simp [EntryList.toList]
      rcases List.mem_append.mp hp with hf | hs
      · exact CleanFile.deeper hin (by simpa using hkept.1) (by simpa using hkept.2)
          (walkFiles_cleanFile hf)
      · exact CleanFile.deeper hin (by simpa using hkept.1) (by simpa using hkept.2)
          (walkSubs_cleanFile hs)
theorem walkSubs_cleanFile {wl bl : List String} {rel : String} {l : EntryList}
    {p : String} (hp : p ∈ walkSubs wl bl rel l) : CleanFile bl rel l p := by
  cases l with
  | nil => cases hp
  | cons e es =>
    rcases List.mem_append.mp hp with h1 | h2
    · refine (walkSub_cleanFile h1).mono ?_
      intro x hx
      simp only [EntryList.toList, List.mem_cons, List.not_mem_nil, or_false] at hx
      simp only [EntryList.toList, List.mem_cons]
      exact Or.inl hx
    · refine (walkSubs_cleanFile h2).mono ?_
      intro x hx
      simp only [EntryList.toList, List.mem_cons]
      exact Or.inr hx
end

/-- C1: every path in the Inclusion Set computed at construction fails every
blacklist pattern, and is a file whose name does not start with a dot reached
only through non-pruned directories (so no member lies under a directory that
is hidden or blacklist-matched). -/
theorem C1_inclusion_set_invariant (wl bl : List String) (fs : FS) (p : String)
    (hp : p ∈ get_whitelist_files wl bl fs) :
    matches_pattern p bl = false ∧ CleanFile bl "." fs.entries p := by
  rw [get_whitelist_files] at hp
  split at hp
  · rcases List.mem_append.mp hp with hf | hs
    · have hc := walkFiles_cleanFile hf
      exact ⟨hc.matches_false, hc⟩
    · have hc := walkSubs_cleanFile hs
      exact ⟨hc.matches_false, hc⟩
  · cases hp

/-- Concrete instance of `C1_inclusion_set_invariant`: on a root holding
directory `a` with files `f.py` and `.sec`, the selected path `a/f.py`
matches no blacklist pattern and is cleanly reached. -/
theorem C1_inclusion_set_invariant_witness :
    matches_pattern "a/f.py" ["__pycache__"] = false ∧
    CleanFile ["__pycache__"] "."
      (EntryList.cons (Entry.dir "a" (EntryList.cons (Entry.file "f.py")
        (EntryList.cons (Entry.file ".sec") EntryList.nil))) EntryList.nil) "a/f.py" :=
  C1_inclusion_set_invariant ["*"] ["__pycache__"]
    ⟨true, EntryList.cons (Entry.dir "a" (EntryList.cons (Entry.file "f.py")
      (EntryList.cons (Entry.file ".sec") EntryList.nil))) EntryList.nil⟩ "a/f.py" (by decide)

/-! ### Structure Renderer (utils.py, `get_project_structure`, lines 54-95) -/

/-- Lexicographic comparison of character lists by code point, the order
underlying Python string comparison. -/
def charsLt : List Char → List Char → Bool
  | [], [] => false
  | [], _ :: _ => true
  | _ :: _, [] => false
  | a :: as, b :: bs => if a < b then true else if b < a then false else charsLt as bs

/-- Python `a < b` on strings. -/
def strLt (a b : String) : Bool := charsLt a.data b.data

/-- Insert `x` into an already sorted list, after strictly smaller elements
and before equal ones (stable, as Python `list.sort`). -/
def insertSorted (x : String) : List String → List String
  | [] => [x]
  | y :: ys => if strLt y x then y :: insertSorted x ys else x :: y :: ys

/-- Python `files.sort()`: stable ascending sort. -/
def pySort : List String → List String
  | [] => []
  | x :: xs => insertSorted x (pySort xs)

/-- Embedding of `get_indent(level)`: the 4-character marker repeated. -/
def get_indent (level : Nat) : String := String.join (List.replicate level "|   ")

/-- Python `current_dir.count(os.sep)`. -/
def countSep (s : String) : Nat := s.data.count '/'

/-- The file names of one directory listing, in listing order. -/
def fileNames (es : EntryList) : List String :=
  es.toList.filterMap fun e =>
    match e with
    | .file n => some n
    | .dir _ _ => none

/-- The file lines emitted for one visited directory (lines 85-93): names are
sorted, dot-files are skipped, files whose relative path matches the
blacklist are skipped, the rest are emitted one indent level deeper. -/
def structFilesStr (bl : List String) (relCur : String) (es : EntryList) : String :=
  String.join ((pySort (fileNames es)).filterMap fun f =>
    if pyStartsWith f "." then none
    else if matches_pattern (pyJoin relCur f) bl then none
    else some (get_indent (countSep relCur + 1) ++ "├── " ++ f ++ "\n"))

/-- The header line emitted for a visited non-root directory (lines 82-83). -/
def dirHeader (relCur name : String) : String :=
  get_indent (countSep relCur) ++ "├── " ++ name ++ "/\n"

mutual
/-- Contribution of one entry to the rendered structure. A subdirectory is
pruned (lines 74-76) when its name starts with a dot or when
`os.path.join(root, d)` — the WALK ROOT joined with the name, i.e. the
absolute path `absCur/d`, not the relative path — matches the blacklist;
a surviving subdirectory contributes its header line, its file lines, and
its own subdirectories. -/
def structSub (bl : List String) (absCur relCur : String) : Entry → String
  | .file _ => ""
  | .dir d cs =>
    if pyStartsWith d "." || matches_pattern (pyJoin absCur d) bl then ""
    else
      dirHeader (childRel relCur d) d ++ structFilesStr bl (childRel relCur d) cs ++
        structSubs bl (pyJoin absCur d) (childRel relCur d) cs
/-- Rendering of the subdirectories of one directory, in listing order. -/
def structSubs (bl : List String) (absCur relCur : String) : EntryList → String
  | .nil => ""
  | .cons e es => structSub bl absCur relCur e ++ structSubs bl absCur relCur es
end

/-- Embedding of `get_project_structure(cwd, blacklist_files)`: the root
itself prints no header (`current_dir == "."`), its files print at one
indent level, then each surviving subtree follows. A non-existent root
yields the empty string. -/
def get_project_structure (cwd : String) (bl : List String) (fs : FS) : String :=
  if fs.root_exists then
    structFilesStr bl "." fs.entries ++ structSubs bl cwd "." fs.entries
  else ""

mutual
/-- Follows the spec's words for C6: the renderer with the Walker's
directory-pruning rule, i.e. a subdirectory is pruned exactly when its name
starts with a dot or its RELATIVE path matches the blacklist. -/
def structSubSpec (bl : List String) (relCur : String) : Entry → String
  | .file _ => ""
  | .dir d cs =>
    if pyStartsWith d "." || matches_pattern (pyJoin relCur d) bl then ""
    else
      dirHeader (childRel relCur d) d ++ structFilesStr bl (childRel relCur d) cs ++
        structSubsSpec bl (childRel relCur d) cs
/-- Subdirectory loop of the spec-worded renderer. -/
def structSubsSpec (bl : List String) (relCur : String) : EntryList → String
  | .nil => ""
  | .cons e es => structSubSpec bl relCur e ++ structSubsSpec bl relCur es
end

/-- Follows the spec's words for C6: structure rendering that prunes by the
identical rule the Walker applies (relative path against the blacklist). -/
def get_project_structure_walkerRule (bl : List String) (fs : FS) : String :=
  if fs.root_exists then
    structFilesStr bl "." fs.entries ++ structSubsSpec bl "." fs.entries
  else ""

/-- C6 counterexample: with root `/h`, blacklist `["h"]` and a directory `a`
holding `f.py`, the code's renderer checks the pattern against the absolute
path `/h/a` (which contains `"h"`) and prunes `a`, while the Walker's rule
checks the relative path `./a` (which does not) and descends; the Walker
indeed selects `a/f.py`. So the renderer does not apply the Walker's rule. -/
theorem C6_renderer_prunes_by_absolute_path :
    get_project_structure "/h" ["h"]
        ⟨true, EntryList.cons (Entry.dir "a" (EntryList.cons (Entry.file "f.py")
          EntryList.nil)) EntryList.nil⟩ = "" ∧
    get_project_structure_walkerRule ["h"]
        ⟨true, EntryList.cons (Entry.dir "a" (EntryList.cons (Entry.file "f.py")
          EntryList.nil)) EntryList.nil⟩ = "├── a/\n|   ├── f.py\n" ∧
    get_whitelist_files ["*"] ["h"]
        ⟨true, EntryList.cons (Entry.dir "a" (EntryList.cons (Entry.file "f.py")
          EntryList.nil)) EntryList.nil⟩ = ["a/f.py"] := by
  refine ⟨by decide, by decide, by decide⟩

/-! #### Conditional agreement of the two pruning rules (C6, amended)

The pattern check of the renderer runs on `absCur/d` while the Walker's runs
on `relCur/d` (with `relCur = "."` at the top level). The two agree whenever
no blacklist pattern contains a separator or a dot and no pattern occurs in
the root path `cwd` itself. -/

theorem occursIn_nil_pat : ∀ l : List Char, occursIn [] l = true := by
  intro l
  cases l with
  | nil => rfl
  | cons c rest => rfl

theorem leadsWith_append_weaken {p : List Char} :
    ∀ {a : List Char} (z : List Char), leadsWith p a = true → leadsWith p (a ++ z) = true := by
  induction p with
  | nil => intro a z _; rfl
  | cons y p' ih =>
    intro a z h
    cases a with
    | nil => cases h
    | cons x a' =>
      rw [List.cons_append]
      rw [leadsWith, Bool.and_eq_true] at h ⊢
      exact ⟨h.1, ih z h.2⟩

theorem leadsWith_append_sep {p : List Char} {c : Char} (hc : c ∉ p) :
    ∀ {a b : List Char}, leadsWith p (a ++ c :: b) = true → leadsWith p a = true := by
  induction p with
  | nil => intro a b _; rfl
  | cons y p' ih =>
    intro a b h
    cases a with
    | nil =>
      rw [List.nil_append, leadsWith, Bool.and_eq_true, decide_eq_true_eq] at h
      exact absurd (h.1 ▸ List.mem_cons_self y p') hc
    | cons x a' =>
      rw [List.cons_append, leadsWith, Bool.and_eq_true] at h
      rw [leadsWith, Bool.and_eq_true]
      exact ⟨h.1, ih (fun hm => hc (List.mem_cons_of_mem y hm)) h.2⟩

theorem occursIn_append_right {p : List Char} (c : Char) :
    ∀ (a : List Char) {b : List Char}, occursIn p b = true → occursIn p (a ++ c :: b) = true := by
  intro a
  induction a with
  | nil =>
    intro b h
    rw [List.nil_append, occursIn, Bool.or_eq_true]
    exact Or.inr h
  | cons x a' ih =>
    intro b h
    rw [List.cons_append, occursIn, Bool.or_eq_true]
    exact Or.inr (ih h)

theorem occursIn_append_left {p : List Char} (c : Char) :
    ∀ {a : List Char} (b : List Char), occursIn p a = true → occursIn p (a ++ c :: b) = true := by
  intro a
  induction a with
  | nil =>
    intro b h
    have hp : p = [] := by
      cases p with
      | nil => rfl
      | cons y p' => cases h
    subst hp
    exact occursIn_nil_pat _
  | cons x a' ih =>
    intro b h
    rw [occursIn, Bool.or_eq_true] at h
    rw [List.cons_append, occursIn, Bool.or_eq_true]
    rcases h with h | h
    · exact Or.inl (by
        have := leadsWith_append_weaken (p := p) (a := x :: a') (c :: b) h
        rwa [List.cons_append] at this)
    · exact Or.inr (ih b h)

theorem occursIn_append_sep {p : List Char} {c : Char} (hc : c ∉ p) :
    ∀ (a : List Char) {b : List Char}, occursIn p (a ++ c :: b) = true →
      occursIn p a = true ∨ occursIn p b = true := by
  intro a
  induction a with
  | nil =>
    intro b h
    rw [List.nil_append, occursIn, Bool.or_eq_true] at h
    rcases h with h | h
    · cases p with
      | nil => exact Or.inl (occursIn_nil_pat _)
      | cons y p' =>
        rw [leadsWith, Bool.and_eq_true, decide_eq_true_eq] at h
        exact absurd (h.1 ▸ List.mem_cons_self y p') hc
    · exact Or.inr h
  | cons x a' ih =>
    intro b h
    rw [List.cons_append, occursIn, Bool.or_eq_true] at h
    rcases h with h | h
    · have : leadsWith p (x :: a') = true := by
        have := leadsWith_append_sep hc (a := x :: a') (b := b)
        exact this (by rwa [List.cons_append])
      exact Or.inl (by rw [occursIn, Bool.or_eq_true]; exact Or.inl this)
    · rcases ih h with h' | h'
      · exact Or.inl (by rw [occursIn, Bool.or_eq_true]; exact Or.inr h')
      · exact Or.inr h'

theorem occursIn_dot_singleton {p : List Char} (hp : ('.' : Char) ∉ p)
    (h : occursIn p ['.'] = true) : p = [] := by
  cases p with
  | nil => rfl
  | cons y p' =>
    rw [occursIn, occursIn, Bool.or_eq_true] at h
    rcases h with h | h
    · rw [leadsWith, Bool.and_eq_true, decide_eq_true_eq] at h
      exact absurd (h.1 ▸ List.mem_cons_self y p') hp
    · cases h

/-- Invariant tying the renderer's walk root to the Walker's relative path:
at the top level the walk root is `cwd` itself and the relative path is `"."`;
below it the walk root is `cwd` followed by a separator and the relative path. -/
def AbsRelInv (cwd abs rel : String) : Prop :=
  (rel = "." ∧ abs = cwd) ∨ (rel ≠ "." ∧ abs.data = cwd.data ++ '/' :: rel.data)

theorem ne_dot_of_not_starts {d : String} (h : pyStartsWith d "." = false) :
    d ≠ "." := by
  intro h2
  rw [h2] at h
  exact absurd h (by decide)

theorem pyJoin_ne_dot (a b : String) : pyJoin a b ≠ "." := by
  intro h
  have hdata : a.data ++ '/' :: b.data = ['.'] := congrArg String.data h
  cases ha : a.data with
  | nil =>
    rw [ha, List.nil_append] at hdata
    simp at hdata
  | cons x xs =>
    rw [ha, List.cons_append] at hdata
    simp [List.append_eq_nil] at hdata

theorem AbsRelInv.child {cwd abs rel d : String} (h : AbsRelInv cwd abs rel)
    (hd : pyStartsWith d "." = false) :
    AbsRelInv cwd (pyJoin abs d) (childRel rel d) := by
  rcases h with ⟨hrel, habs⟩ | ⟨hne, habs⟩
  · rw [childRel, if_pos hrel]
    refine Or.inr ⟨ne_dot_of_not_starts hd, ?_⟩
    rw [habs]
    rfl
  · rw [childRel, if_neg hne]
    refine Or.inr ⟨pyJoin_ne_dot rel d, ?_⟩
    show abs.data ++ '/' :: d.data = cwd.data ++ '/' :: (rel.data ++ '/' :: d.data)
    rw [habs, List.append_assoc, List.cons_append]

theorem bool_eq_of_imp {x y : Bool} (h1 : x = true → y = true)
    (h2 : y = true → x = true) : x = y := by
  cases x <;> cases y <;> simp_all

theorem occursIn_abs_eq_rel {cwd abs rel : String} (d : String) {q : String}
    (hq1 : ('/' : Char) ∉ q.data) (hq2 : ('.' : Char) ∉ q.data)
    (hq3 : occursIn q.data cwd.data = false) (hinv : AbsRelInv cwd abs rel) :
    occursIn q.data (pyJoin abs d).data = occursIn q.data (pyJoin rel d).data := by
  rcases hinv with ⟨hrel, habs⟩ | ⟨_, habs⟩
  · rw [hrel, habs]
    apply bool_eq_of_imp
    · intro h
      have h0 : occursIn q.data (cwd.data ++ '/' :: d.data) = true := h
      rcases occursIn_append_sep hq1 cwd.data h0 with h' | h'
      · rw [hq3] at h'; cases h'
      · show occursIn q.data (['.'] ++ '/' :: d.data) = true
        exact occursIn_append_right '/' ['.'] h'
    · intro h
      have h' : occursIn q.data (['.'] ++ '/' :: d.data) = true := h
      show occursIn q.data (cwd.data ++ '/' :: d.data) = true
      rcases occursIn_append_sep hq1 ['.'] h' with h'' | h''
      · have hz := occursIn_dot_singleton hq2 h''
        rw [hz]
        exact occursIn_nil_pat _
      · exact occursIn_append_right '/' cwd.data h''
  · apply bool_eq_of_imp
    · intro h
      have h' : occursIn q.data (cwd.data ++ '/' :: (rel.data ++ '/' :: d.data)) = true := by
        have h0 : occursIn q.data (abs.data ++ '/' :: d.data) = true := h
        rw [habs, List.append_assoc, List.cons_append] at h0
        exact h0
      rcases occursIn_append_sep hq1 cwd.data h' with h'' | h''
      · rw [hq3] at h''; cases h''
      · exact h''
    · intro h
      show occursIn q.data (abs.data ++ '/' :: d.data) = true
      rw [habs, List.append_assoc, List.cons_append]
      exact occursIn_append_right '/' cwd.data h

theorem matches_pattern_abs_eq_rel {cwd abs rel : String} (d : String)
    (bl : List String)
    (hbl : ∀ p ∈ bl, ('/' : Char) ∉ p.data ∧ ('.' : Char) ∉ p.data ∧
      occursIn p.data cwd.data = false)
    (hinv : AbsRelInv cwd abs rel) :
    matches_pattern (pyJoin abs d) bl = matches_pattern (pyJoin rel d) bl := by
  induction bl with
  | nil => rfl
  | cons q rest ih =>
    have hq := hbl q (List.mem_cons_self q rest)
    have hrest : ∀ p ∈ rest, ('/' : Char) ∉ p.data ∧ ('.' : Char) ∉ p.data ∧
        occursIn p.data cwd.data = false :=
      fun p hp => hbl p (List.mem_cons_of_mem q hp)
    rw [matches_pattern, matches_pattern,
      occursIn_abs_eq_rel d hq.1 hq.2.1 hq.2.2 hinv, ih hrest]

mutual
theorem structSub_walkerRule_eq (cwd : String) (bl : List String)
    (hbl : ∀ p ∈ bl, ('/' : Char) ∉ p.data ∧ ('.' : Char) ∉ p.data ∧
      occursIn p.data cwd.data = false)
    (abs rel : String) (hinv : AbsRelInv cwd abs rel) (e : Entry) :
    structSub bl abs rel e = structSubSpec bl rel e := by
  cases e with
  | file _ => rfl
  | dir d cs =>
    rw [structSub, structSubSpec, matches_pattern_abs_eq_rel d bl hbl hinv]
    by_cases hd : (pyStartsWith d "." || matches_pattern (pyJoin rel d) bl) = true
    · rw [if_pos hd, if_pos hd]
    · rw [if_neg hd, if_neg hd]
      have hd' : pyStartsWith d "." = false := by
        cases hx : pyStartsWith d "." with
        | false => rfl
        | true => exact absurd (by rw [hx, Bool.true_or]) hd
      rw [structSubs_walkerRule_eq cwd bl hbl (pyJoin abs d) (childRel rel d)
        (hinv.child hd') cs]
theorem structSubs_walkerRule_eq (cwd : String) (bl : List String)
    (hbl : ∀ p ∈ bl, ('/' : Char) ∉ p.data ∧ ('.' : Char) ∉ p.data ∧
      occursIn p.data cwd.data = false)
    (abs rel : String) (hinv : AbsRelInv cwd abs rel) (l : EntryList) :
    structSubs bl abs rel l = structSubsSpec bl rel l := by
  cases l with
  | nil => rfl
  | cons e es =>
    rw [structSubs, structSubsSpec,
      structSub_walkerRule_eq cwd bl hbl abs rel hinv e,
      structSubs_walkerRule_eq cwd bl hbl abs rel hinv es]
end

/-- C6 amended: the renderer prunes by the walk root's path joined with the
directory name (an absolute path), not by the relative path as the Walker
does; whenever no blacklist pattern contains a separator or a dot and no
pattern occurs in the root path itself, the two rules coincide and the
rendered structure equals the Walker-rule rendering. -/
theorem C6_renderer_walker_agree_when_patterns_clean (cwd : String)
    (bl : List String) (fs : FS)
    (hbl : ∀ p ∈ bl, ('/' : Char) ∉ p.data ∧ ('.' : Char) ∉ p.data ∧
      occursIn p.data cwd.data = false) :
    get_project_structure cwd bl fs = get_project_structure_walkerRule bl fs := by
  rw [get_project_structure, get_project_structure_walkerRule]
  rcases fs with ⟨re, es⟩
  cases re
  · rfl
  · simp only [if_pos]
    rw [structSubs_walkerRule_eq cwd bl hbl cwd "." (Or.inl ⟨rfl, rfl⟩) es]

/-- Concrete instance of `C6_renderer_walker_agree_when_patterns_clean`: with
root `/home/u/proj` and blacklist `["__pycache__"]` the two renderings agree. -/
theorem C6_renderer_walker_agree_when_patterns_clean_witness :
    get_project_structure "/home/u/proj" ["__pycache__"]
        ⟨true, EntryList.cons (Entry.dir "a" (EntryList.cons (Entry.file "f.py")
          EntryList.nil)) EntryList.nil⟩ =
      get_project_structure_walkerRule ["__pycache__"]
        ⟨true, EntryList.cons (Entry.dir "a" (EntryList.cons (Entry.file "f.py")
          EntryList.nil)) EntryList.nil⟩ :=
  C6_renderer_walker_agree_when_patterns_clean "/home/u/proj" ["__pycache__"] _ (by decide)

/-- C8: a non-existent traversal root yields an empty Inclusion Set and an
empty structure rendering, with no error. -/
theorem C8_nonexistent_root_silent_empty (wl bl : List String) (cwd : String)
    (fs : FS) (h : fs.root_exists = false) :
    get_whitelist_files wl bl fs = [] ∧ get_project_structure cwd bl fs = "" := by
  rw [get_whitelist_files, get_project_structure, h]
  exact ⟨rfl, rfl⟩

/-- Concrete instance of `C8_nonexistent_root_silent_empty` on a missing root
that would otherwise hold a file. -/
theorem C8_nonexistent_root_silent_empty_witness :
    get_whitelist_files ["*"] [] ⟨false, EntryList.cons (Entry.file "f.py") EntryList.nil⟩ = [] ∧
    get_project_structure "/x" [] ⟨false, EntryList.cons (Entry.file "f.py") EntryList.nil⟩ = "" :=
  C8_nonexistent_root_silent_empty ["*"] [] "/x"
    ⟨false, EntryList.cons (Entry.file "f.py") EntryList.nil⟩ rfl

/-! ### Prompt Assembler (damj.py, `_add_question`, `_post_process_prompt`,
`create_prompt`, lines 250-296) -/

/-- The `Damj` object's attributes (damj.py lines 136-141). -/
structure DamjState where
  cwd : String
  whitelist_files : List String
  blacklist_files : List String
  snippet_marker : String
  prompt : String

/-- Embedding of `Damj._add_question(prompt, question)` (lines 250-255): the
f-string appends a newline, the header, the question, and two newlines. -/
def add_question (prompt question : String) : String :=
  prompt ++ "\n# Question\n" ++ question ++ "\n\n"

/-- Embedding of `Damj._post_process_prompt(prompt)` (lines 257-259):
Python `prompt.strip()`. -/
def post_process_prompt (prompt : String) : String := pyStrip prompt

/-- Embedding of `Damj.create_prompt(question, ...)` (lines 261-296): start
from the stored prompt, append the question section when `question` is truthy
(neither `None` nor empty), strip, and return. The method never assigns any
attribute, so the state comes back unchanged; the clipboard copy and the
rich-markdown display are external side effects outside the data model
(spec section 1 places them out of scope). -/
def create_prompt (d : DamjState) (question : Option String) : String × DamjState :=
  let prompt := d.prompt
  let prompt :=
    match question with
    | none => prompt
    | some q => if q = "" then prompt else add_question prompt q
  (post_process_prompt prompt, d)

theorem pyStrip_data (s : String) :
    (pyStrip s).data =
      List.rdropWhile pyIsSpace (List.dropWhile pyIsSpace s.data) := by
  rw [List.rdropWhile]
  rfl

theorem dropWhile_rdropWhile_dropWhile (l : List Char) :
    List.dropWhile pyIsSpace
        (List.rdropWhile pyIsSpace (List.dropWhile pyIsSpace l)) =
      List.rdropWhile pyIsSpace (List.dropWhile pyIsSpace l) := by
  rw [List.dropWhile_eq_self_iff]
  intro hl
  have hpre : List.rdropWhile pyIsSpace (List.dropWhile pyIsSpace l) <+:
      List.dropWhile pyIsSpace l := List.rdropWhile_prefix _ _
  have hlen : 0 < (List.dropWhile pyIsSpace l).length :=
    lt_of_lt_of_le hl hpre.length_le
  have hhead :
      (List.dropWhile pyIsSpace l)[0] =
        (List.rdropWhile pyIsSpace (List.dropWhile pyIsSpace l))[0] :=
    (hpre.getElem hl).symm
  have hnot := List.head_dropWhile_not pyIsSpace l
      (by intro hnil; rw [hnil] at hlen; cases hlen)
  rw [List.head_eq_getElem] at hnot
  rw [List.get_eq_getElem, ← hhead]
  intro hcontra
  rw [hcontra] at hnot
  cases hnot

theorem pyStrip_idempotent (s : String) : pyStrip (pyStrip s) = pyStrip s := by
  have h : (pyStrip (pyStrip s)).data = (pyStrip s).data := by
    rw [pyStrip_data, pyStrip_data s, dropWhile_rdropWhile_dropWhile,
      List.rdropWhile_idempotent]
  rcases hs : pyStrip (pyStrip s) with ⟨l1⟩
  rcases hs2 : pyStrip s with ⟨l2⟩
  rw [hs, hs2] at h
  exact congrArg String.mk h

theorem rdropWhile_append_rtakeWhile (l : List Char) :
    List.rdropWhile pyIsSpace l ++ List.rtakeWhile pyIsSpace l = l := by
  rw [List.rdropWhile, List.rtakeWhile, ← List.reverse_append,
    List.takeWhile_append_dropWhile, List.reverse_reverse]

theorem pyStrip_trims (s : String) :
    ∃ a b, s.data = a ++ (pyStrip s).data ++ b ∧
      (∀ c ∈ a, pyIsSpace c = true) ∧ (∀ c ∈ b, pyIsSpace c = true) := by
  refine ⟨List.takeWhile pyIsSpace s.data,
    List.rtakeWhile pyIsSpace (List.dropWhile pyIsSpace s.data), ?_, ?_, ?_⟩
  · rw [pyStrip_data, List.append_assoc, rdropWhile_append_rtakeWhile,
      List.takeWhile_append_dropWhile]
  · intro c hc; exact List.mem_takeWhile_imp hc
  · intro c hc; exact List.mem_rtakeWhile_imp hc

/-- C9: `_post_process_prompt` (the `finalize` step) removes exactly a block
of leading whitespace and a block of trailing whitespace, is idempotent, and
maps `"  hello  \n"` to `"hello"`. -/
theorem C9_finalize_strip_idempotent (s : String) :
    post_process_prompt (post_process_prompt s) = post_process_prompt s ∧
    (∃ a b, s.data = a ++ (post_process_prompt s).data ++ b ∧
      (∀ c ∈ a, pyIsSpace c = true) ∧ (∀ c ∈ b, pyIsSpace c = true)) ∧
    post_process_prompt "  hello  \n" = "hello" :=
  ⟨pyStrip_idempotent s, pyStrip_trims s, by decide⟩

/-- C10: `create_prompt` leaves every attribute of the object unchanged, and
calling it twice in a row with the same question yields the same string. -/
theorem C10_create_prompt_pure (d : DamjState) (q : Option String) :
    (create_prompt d q).2 = d ∧
    (create_prompt ((create_prompt d q).2) q).1 = (create_prompt d q).1 :=
  ⟨rfl, rfl⟩

/-! ### Source Transformer (utils.py, `handle_ipynb`, `strip_docstrings`,
`get_file_content`, lines 97-250) -/

/-- The four transform flags read from `py_options` (with `dict.get`
defaults `True, True, True, False` at the call sites). -/
structure PyOptions where
  add_comments : Bool
  add_imports : Bool
  add_docstrings : Bool
  ipynb_output : Bool

/-- Split a character list at newline characters (every part, including a
final empty one for a trailing newline). -/
def splitNl : List Char → List (List Char)
  | [] => [[]]
  | c :: rest =>
    if c = '\n' then [] :: splitNl rest
    else
      match splitNl rest with
      | [] => [[c]]
      | l :: ls => (c :: l) :: ls

/-- Python `code.splitlines()` for newline-separated text: like splitting on
the newline character, except that the empty string yields no lines and a
trailing newline does not produce a final empty line. -/
def pySplitlines (s : String) : List String :=
  if s.data.isEmpty then []
  else
    let parts := (splitNl s.data).map fun l => (⟨l⟩ : String)
    if pyEndsWith s "\n" then parts.dropLast else parts

/-- Python `"\n".join(lines)`. -/
def joinLines : List String → String
  | [] => ""
  | [l] => l
  | l :: l2 :: rest => l ++ "\n" ++ joinLines (l2 :: rest)

/-- The comment filter (utils.py lines 150-152 and 235-237): drop every line
whose stripped form starts with `#`. -/
def removeCommentLines (code : String) : String :=
  joinLines ((pySplitlines code).filter fun l => !pyStartsWith (pyStrip l) "#")

/-- The import filter (utils.py lines 154-159 and 240-243): drop every line
whose stripped form starts with `import` or `from`. -/
def removeImportLines (code : String) : String :=
  joinLines ((pySplitlines code).filter fun l =>
    !pyStartsWith (pyStrip l) "import" && !pyStartsWith (pyStrip l) "from")

mutual
/-- A Python statement as seen by the `ast` module, restricted to the shapes
this package manipulates: a bare string-literal expression statement
(`ast.Expr` holding `ast.Str`), an assignment of a string literal, any other
body-less simple statement kept as its source text, and the three
body-carrying definitions that `strip_docstrings` filters
(`FunctionDef`, `AsyncFunctionDef`, `ClassDef`). -/
inductive PyStmt where
  | exprStr (s : String)
  | assignStr (target : String) (value : String)
  | other (text : String)
  | fnDef (name : String) (body : PyBody)
  | asyncFnDef (name : String) (body : PyBody)
  | classDef (name : String) (body : PyBody)
  deriving DecidableEq
/-- A statement list (a `body` in the `ast` module), kept mutual with
`PyStmt` so that recursion over trees is structural. -/
inductive PyBody where
  | nil
  | cons (s : PyStmt) (b : PyBody)
  deriving DecidableEq
end

/-- View a `PyBody` as an ordinary list of statements. -/
def PyBody.toList : PyBody → List PyStmt
  | .nil => []
  | .cons s b => s :: b.toList

/-- An `ast.Module`: the top-level statement list. -/
structure PyModule where
  body : PyBody
  deriving DecidableEq

/-- The filter test of `strip_docstrings` (lines 191-192): a statement that
is an `ast.Expr` whose value is an `ast.Str`. -/
def isBareStr : PyStmt → Bool
  | .exprStr _ => true
  | _ => false

mutual
/-- Recursion of `strip_docstrings` into one statement (the
`ast.iter_child_nodes` walk, line 193-194): the bodies of function, async
function and class definitions are filtered; other statements are left
alone. -/
def stripStmt : PyStmt → PyStmt
  | .fnDef n b => .fnDef n (stripBody b)
  | .asyncFnDef n b => .asyncFnDef n (stripBody b)
  | .classDef n b => .classDef n (stripBody b)
  | s => s
/-- The body filter of `strip_docstrings` (lines 190-192): every statement
that is a bare string-literal expression is removed — the comprehension
keeps all others, wherever they stand — and the survivors are then walked
recursively. -/
def stripBody : PyBody → PyBody
  | .nil => .nil
  | .cons s b => if isBareStr s then stripBody b else .cons (stripStmt s) (stripBody b)
end

/-- Embedding of `strip_docstrings(tree)` applied to a module (lines
176-195). -/
def strip_docstrings (m : PyModule) : PyModule := ⟨stripBody m.body⟩

/-- C4 counterexample: on a module whose body is a bare string, a simple
statement, then another bare string, the code removes BOTH bare strings,
while the claim says only the leading one is removed and
`exprStr "later"` is preserved. -/
theorem C4_strip_removes_nonleading_strings :
    strip_docstrings ⟨PyBody.cons (PyStmt.exprStr "doc")
        (PyBody.cons (PyStmt.other "x = 1")
          (PyBody.cons (PyStmt.exprStr "later") PyBody.nil))⟩ =
      ⟨PyBody.cons (PyStmt.other "x = 1") PyBody.nil⟩ ∧
    strip_docstrings ⟨PyBody.cons (PyStmt.exprStr "doc")
        (PyBody.cons (PyStmt.other "x = 1")
          (PyBody.cons (PyStmt.exprStr "later") PyBody.nil))⟩ ≠
      ⟨PyBody.cons (PyStmt.other "x = 1")
        (PyBody.cons (PyStmt.exprStr "later") PyBody.nil)⟩ :=
  ⟨rfl, by decide⟩

mutual
/-- True when no bare string-literal statement remains anywhere in the
bodies reachable from this statement. -/
def stmtNoDocstrings : PyStmt → Bool
  | .fnDef _ b => bodyNoDocstrings b
  | .asyncFnDef _ b => bodyNoDocstrings b
  | .classDef _ b => bodyNoDocstrings b
  | _ => true
/-- True when this body holds no bare string-literal statement, recursively. -/
def bodyNoDocstrings : PyBody → Bool
  | .nil => true
  | .cons s b => !isBareStr s && stmtNoDocstrings s && bodyNoDocstrings b
end

theorem isBareStr_stripStmt (s : PyStmt) : isBareStr (stripStmt s) = isBareStr s := by
  cases s <;> rfl

mutual
theorem stripStmt_clean (s : PyStmt) : stmtNoDocstrings (stripStmt s) = true := by
  cases s with
  | fnDef n b => exact stripBody_clean b
  | asyncFnDef n b => exact stripBody_clean b
  | classDef n b => exact stripBody_clean b
  | exprStr s => rfl
  | assignStr t v => rfl
  | other t => rfl
theorem stripBody_clean (b : PyBody) : bodyNoDocstrings (stripBody b) = true := by
  cases b with
  | nil => rfl
  | cons s b' =>
    rw [stripBody]
    by_cases hs : isBareStr s = true
    · rw [if_pos hs]
      exact stripBody_clean b'
    · have hs' : isBareStr s = false := by
        cases h : isBareStr s
        · rfl
        · exact absurd h hs
      rw [if_neg hs, bodyNoDocstrings, isBareStr_stripStmt, hs']
      rw [stripStmt_clean s, stripBody_clean b']
      rfl
end

theorem stripBody_preserves (b : PyBody) (s : PyStmt) (hs : s ∈ b.toList)
    (hn : isBareStr s = false) : stripStmt s ∈ (stripBody b).toList := by
  cases b with
  | nil => cases hs
  | cons s0 b' =>
    rw [PyBody.toList, List.mem_cons] at hs
    rw [stripBody]
    rcases hs with rfl | hs'
    · rw [if_neg (by rw [hn]; exact fun h => Bool.noConfusion h)]
      exact List.mem_cons_self _ _
    · by_cases h0 : isBareStr s0 = true
      · rw [if_pos h0]
        exact stripBody_preserves b' s hs' hn
      · rw [if_neg h0, PyBody.toList]
        exact List.mem_cons_of_mem _ (stripBody_preserves b' s hs' hn)

/-- C4 amended: `strip_docstrings` removes, from the top-level body and from
the body of every function/async-function/class definition, EVERY statement
that is solely a bare string-literal expression — regardless of position —
so no bare string survives anywhere, while every non-string statement of a
body survives (in stripped form). -/
theorem C4_strip_docstrings_removes_every_bare_string (m : PyModule) :
    bodyNoDocstrings (strip_docstrings m).body = true ∧
    (∀ s ∈ m.body.toList, isBareStr s = false →
      stripStmt s ∈ (strip_docstrings m).body.toList) :=
  ⟨stripBody_clean m.body, fun s hs hn => stripBody_preserves m.body s hs hn⟩

/-- Concrete instance of `C4_strip_docstrings_removes_every_bare_string` on
the counterexample module: nothing bare survives and `x = 1` survives. -/
theorem C4_strip_docstrings_removes_every_bare_string_witness :
    bodyNoDocstrings (strip_docstrings ⟨PyBody.cons (PyStmt.exprStr "doc")
        (PyBody.cons (PyStmt.other "x = 1") PyBody.nil)⟩).body = true ∧
    stripStmt (PyStmt.other "x = 1") ∈ (strip_docstrings ⟨PyBody.cons
        (PyStmt.exprStr "doc") (PyBody.cons (PyStmt.other "x = 1")
          PyBody.nil)⟩).body.toList :=
  ⟨(C4_strip_docstrings_removes_every_bare_string _).1,
    (C4_strip_docstrings_removes_every_bare_string _).2
      (PyStmt.other "x = 1") (by decide) (by decide)⟩

/-! #### A model of `ast.parse` / `ast.unparse`

The package calls Python's own parser; here it is modelled on the
line-oriented fragment the proofs use: blank lines, comment lines, one-line
triple-quoted bare strings, multi-line triple-quoted string assignments
(`x = `, then triple quote, raw lines, closing triple quote on its own
line), and simple one-line statements free of quotes and parentheses.
Anything else — in particular a dangling opening triple quote or a stray
quoted fragment, as left behind by the line filters — is a parse failure
(`none`), which is how Python raises `SyntaxError` (the spec's ParseError). -/

/-- Python string-literal escaping as produced by `ast.unparse` for the
characters appearing here: backslash, quote and newline are escaped. -/
def escChar (c : Char) : String :=
  if c = '\\' then "\\\\"
  else if c = '\'' then "\\'"
  else if c = '\n' then "\\n"
  else String.singleton c

/-- Escape a whole string value. -/
def pyEscape (s : String) : String := String.join (s.data.map escChar)

/-- Drop the last `n` characters of a string. -/
def strDropRight (s : String) (n : Nat) : String := ⟨(s.data.reverse.drop n).reverse⟩

/-- A line that the fragment parser accepts as a simple statement: no quote
characters and no parentheses (so a fragment such as `sep)` left over from a
filtered multi-line import is a syntax error, as in Python). -/
def isSimpleLine (t : String) : Bool :=
  t.data.all fun c => c != '\'' && c != '"' && c != '(' && c != ')'

/-- Parser state: accumulated statements (reversed), an open multi-line
triple-quoted assignment (target and collected raw lines, reversed), and a
failure flag. -/
structure PState where
  stmts : List PyStmt
  pending : Option (String × List String)
  failed : Bool

/-- One line of the fragment parser. -/
def parseStep (st : PState) (l : String) : PState :=
  if st.failed then st
  else
    match st.pending with
    | some (t, acc) =>
      if pyStrip l = "'''" then
        { stmts := PyStmt.assignStr t
            ("\n" ++ String.join (acc.reverse.map fun x => x ++ "\n")) :: st.stmts,
          pending := none, failed := false }
      else { st with pending := some (t, l :: acc) }
    | none =>
      let t := pyStrip l
      if t = "" then st
      else if pyStartsWith t "#" then st
      else if pyStartsWith t "'''" && pyEndsWith t "'''" && t.data.length ≥ 6 then
        { st with stmts := PyStmt.exprStr (strDropRight ⟨t.data.drop 3⟩ 3) :: st.stmts }
      else if pyEndsWith t "= '''" then
        { st with pending := some (pyStrip (strDropRight t 5), []) }
      else if isSimpleLine t then
        { st with stmts := PyStmt.other t :: st.stmts }
      else { st with failed := true }

/-- Turn a statement list into a `PyBody`. -/
def listToBody : List PyStmt → PyBody
  | [] => PyBody.nil
  | s :: rest => PyBody.cons s (listToBody rest)

/-- Model of `ast.parse(code)` on the fragment: `none` is a `SyntaxError`. -/
def pyParse (code : String) : Option PyModule :=
  let fin := (pySplitlines code).foldl parseStep ⟨[], none, false⟩
  if fin.failed then none
  else
    match fin.pending with
    | some _ => none
    | none => some ⟨listToBody fin.stmts.reverse⟩

mutual
/-- Model of `ast.unparse` for one statement, as source lines: string values
come back as single-quoted escaped one-line literals (so an embedded newline
reappears as a backslash-n escape), bodies are indented four spaces. -/
def unparseStmt : PyStmt → List String
  | .exprStr s => ["'" ++ pyEscape s ++ "'"]
  | .assignStr t v => [t ++ " = '" ++ pyEscape v ++ "'"]
  | .other t => [t]
  | .fnDef n b => ("def " ++ n ++ "():") :: (unparseBody b).map (fun l => "    " ++ l)
  | .asyncFnDef n b =>
    ("async def " ++ n ++ "():") :: (unparseBody b).map (fun l => "    " ++ l)
  | .classDef n b => ("class " ++ n ++ ":") :: (unparseBody b).map (fun l => "    " ++ l)
/-- Unparse a body into source lines. -/
def unparseBody : PyBody → List String
  | .nil => []
  | .cons s b => unparseStmt s ++ unparseBody b
end

/-- Model of `ast.unparse(tree)` for a module: its lines joined by newlines. -/
def pyUnparse (m : PyModule) : String := joinLines (unparseBody m.body)

/-- Embedding of `handle_ipynb.process_code(code)` (utils.py lines 131-161):
when docstring removal is requested the CELL'S ORIGINAL text is parsed,
stripped and unparsed FIRST (lines 145-148), and only then are the comment
filter (lines 150-152) and the import filter (lines 154-159) applied. -/
def process_code (opts : PyOptions) (code : String) : Option String :=
  let afterDoc : Option String :=
    if opts.add_docstrings then some code
    else
      match pyParse code with
      | none => none
      | some tree => some (pyUnparse (strip_docstrings tree))
  match afterDoc with
  | none => none
  | some c1 =>
    let c2 := if opts.add_comments then c1 else removeCommentLines c1
    let c3 := if opts.add_imports then c2 else removeImportLines c2
    some c3

/-- Embedding of the plain-file branch of `get_file_content(file, py_options)`
(utils.py lines 230-250), taking the decoded file text (the `latin-1` read of
line 231 never fails and is the identity on the decoded text): the COMMENT
FILTER runs first (lines 235-237), then the IMPORT FILTER (lines 240-243),
and only then, when docstring removal is requested, is the ALREADY FILTERED
text parsed, stripped and unparsed (lines 246-248). -/
def get_file_content_py (opts : PyOptions) (src : String) : Option String :=
  let c1 := if opts.add_comments then src else removeCommentLines src
  let c2 := if opts.add_imports then c1 else removeImportLines c1
  if opts.add_docstrings then some c2
  else
    match pyParse c2 with
    | none => none
    | some tree => some (pyUnparse (strip_docstrings tree))

/-- Follows the spec's words for C3: docstring-stripping (the full-tree parse
and re-serialize) applied strictly before the comment/import line-filtering,
so the parse operates on the original, unfiltered source text. -/
def transform_docstrings_first (opts : PyOptions) (src : String) : Option String :=
  match (if opts.add_docstrings then some src
    else
      match pyParse src with
      | none => none
      | some tree => some (pyUnparse (strip_docstrings tree))) with
  | none => none
  | some c1 =>
    let c2 := if opts.add_comments then c1 else removeCommentLines c1
    some (if opts.add_imports then c2 else removeImportLines c2)

/-- C3 counterexample: for the plain source file `x = ...` assigning a
triple-quoted string whose middle line reads `import os`, with comment
removal off, import removal ON and docstring removal ON, the code's order
(filter first, parse after) first deletes the `import os` line FROM INSIDE
THE STRING LITERAL and then parses the mutilated text, producing a string
value of just one newline — while the spec's order (parse the original
first) keeps the full string value. The two pipelines disagree, so
docstring-stripping is NOT applied before the line filters for plain files. -/
theorem C3_plain_file_filters_run_before_docstring_parse :
    get_file_content_py ⟨true, false, false, false⟩ "x = '''\nimport os\n'''" ≠
      transform_docstrings_first ⟨true, false, false, false⟩ "x = '''\nimport os\n'''" ∧
    get_file_content_py ⟨true, false, false, false⟩ "x = '''\nimport os\n'''" =
      some "x = '\\n'" ∧
    transform_docstrings_first ⟨true, false, false, false⟩ "x = '''\nimport os\n'''" =
      some "x = '\\nimport os\\n'" :=
  ⟨by decide, by decide, by decide⟩

/-- C3 amended: for notebook code cells the transformer does apply
docstring-stripping strictly before the comment/import filters, parsing the
cell's original text (`process_code` equals the spec's order on every input);
for plain source files the order is reversed — the comment and import
filters run first and the docstring parse sees the filtered text — so the
two orders agree on plain files only when no comment/import filtering is
requested. -/
theorem C3_docstring_order_notebook_only (opts : PyOptions) (code : String) :
    process_code opts code = transform_docstrings_first opts code ∧
    (∀ ad ao : Bool, get_file_content_py ⟨true, true, ad, ao⟩ code =
      transform_docstrings_first ⟨true, true, ad, ao⟩ code) := by
  constructor
  · rfl
  · intro ad ao
    cases ad
    · rcases hp : pyParse code with _ | tree
      · simp [get_file_content_py, transform_docstrings_first, hp]
      · simp [get_file_content_py, transform_docstrings_first, hp]
    · simp [get_file_content_py, transform_docstrings_first]

/-- C7: with all four option flags enabled the plain-file transformer is the
identity on the decoded text: every filter is skipped and the text of the
read/decode step is returned unchanged. -/
theorem C7_all_flags_enabled_roundtrip (src : String) :
    get_file_content_py ⟨true, true, true, true⟩ src = some src := rfl

/-! ### Notebook handling (utils.py, `handle_ipynb`, lines 97-174)

`json.load` has already produced a JSON value (invalid JSON raises before
`handle_ipynb`'s body runs, an error upstream of what is modelled here);
`none` models any exception raised while processing the loaded document. -/

/-- A JSON value as produced by `json.load`. -/
inductive JVal where
  | jstr (s : String)
  | jnum (n : Int)
  | jbool (b : Bool)
  | jnull
  | jarr (elems : List JVal)
  | jobj (fields : List (String × JVal))

/-- Python `dict` lookup (`d[k]` / the hit case of `d.get(k)`). -/
def jlookup : List (String × JVal) → String → Option JVal
  | [], _ => none
  | (k, v) :: rest, key => if k = key then some v else jlookup rest key

/-- Python `"".join(fragments)` over a JSON array of strings; a non-string
element is a `TypeError`. -/
def jjoinStrings : List JVal → Option String
  | [] => some ""
  | .jstr s :: rest => (jjoinStrings rest).map (fun r => s ++ r)
  | _ :: _ => none

/-- Python `"".join(x)` for the values fed to it here: an array of string
fragments, or a single string (joining a string's characters gives the
string back); anything else is a `TypeError`. -/
def jjoin : JVal → Option String
  | .jarr xs => jjoinStrings xs
  | .jstr s => some s
  | _ => none

/-- The text contributed by one notebook output object (lines 169-173):
its `text` field if present, else `data["text/plain"]` if present, each
followed by a newline; an output that is not an object cannot answer
`"text" in output` and is an error. A `data` value that is a string or an
array simply fails the membership test. -/
def outputPiece : JVal → Option String
  | .jobj f =>
    (match jlookup f "text" with
    | some v => (jjoin v).map (fun s => s ++ "\n")
    | none =>
      match jlookup f "data" with
      | some (.jobj df) =>
        match jlookup df "text/plain" with
        | some v => (jjoin v).map (fun s => s ++ "\n")
        | none => some ""
      | some (.jarr _) => some ""
      | some (.jstr _) => some ""
      | some _ => none
      | none => some "")
  | _ => none

/-- The outputs loop of one cell. -/
def processOutputs : List JVal → Option String
  | [] => some ""
  | o :: rest =>
    match outputPiece o with
    | none => none
    | some s => (processOutputs rest).map (fun r => s ++ r)

/-- The cells loop of `handle_ipynb` (lines 163-173): each code cell's joined
source is processed by `process_code` and appended with a newline, followed,
when `ipynb_output` is set, by its outputs' text; non-code cells (or cells
with a missing or non-string `cell_type`) are skipped entirely; a cell that
is not an object has no `.get` and is an error. -/
def processCells (opts : PyOptions) : List JVal → Option String
  | [] => some ""
  | cell :: rest =>
    match cell with
    | .jobj cf =>
      match jlookup cf "cell_type" with
      | some (.jstr t) =>
        if t = "code" then
          match jjoin ((jlookup cf "source").getD (.jarr [])) with
          | none => none
          | some cellCode =>
            match process_code opts cellCode with
            | none => none
            | some processed =>
              match (if opts.ipynb_output then
                  (match (jlookup cf "outputs").getD (.jarr []) with
                  | .jarr outs => processOutputs outs
                  | _ => none)
                else some "") with
              | none => none
              | some outText =>
                (processCells opts rest).map fun r => processed ++ "\n" ++ outText ++ r
        else processCells opts rest
      | some _ => processCells opts rest
      | none => processCells opts rest
    | _ => none

/-- Embedding of `handle_ipynb(file_path, py_options)` after `json.load`:
`notebook_content.get("cells", [])` yields the empty cell list when the key
is absent — no error — and the loop then returns the empty accumulator; a
document whose top level is not an object has no `.get` and is an error, as
is a `cells` value that is not an array. -/
def handle_ipynb (nb : JVal) (opts : PyOptions) : Option String :=
  match nb with
  | .jobj fields =>
    match jlookup fields "cells" with
    | some (.jarr cells) => processCells opts cells
    | none => processCells opts []
    | some _ => none
  | _ => none

/-- C5 counterexample: a valid JSON object with no top-level `cells` key is
processed WITHOUT any error — `dict.get("cells", [])` supplies an empty cell
list and the transformer silently returns the empty string, not a
ParseError. -/
theorem C5_missing_cells_returns_empty_not_error :
    handle_ipynb (JVal.jobj [("nbformat", JVal.jnum 4)]) ⟨true, true, true, false⟩ =
      some "" := rfl

/-- C5 amended: for every notebook whose content is a valid JSON object
lacking a top-level `cells` key, the Source Transformer silently returns an
empty result (no cells are processed and no error is raised); only invalid
JSON raises, upstream in `json.load`. -/
theorem C5_missing_cells_silent_empty (fields : List (String × JVal))
    (opts : PyOptions) (h : jlookup fields "cells" = none) :
    handle_ipynb (JVal.jobj fields) opts = some "" := by
  rw [handle_ipynb, h]
  rfl

/-- Concrete instance of `C5_missing_cells_silent_empty`. -/
theorem C5_missing_cells_silent_empty_witness :
    handle_ipynb (JVal.jobj [("metadata", JVal.jnull)]) ⟨true, true, true, true⟩ =
      some "" :=
  C5_missing_cells_silent_empty [("metadata", JVal.jnull)] ⟨true, true, true, true⟩ rfl

end Damj
